import Mathlib

/-!
Verification development for the OpenTDB trivia scraper
(`src/flashcards/scrape_opentdb.py`).

The script fetches trivia questions over HTTP, deduplicates them by a
content hash, and writes them to JSON files.  This file gives a shallow
embedding of its data model and operations:

* Python strings are Lean `String`s; Python's string comparison
  (lexicographic by code point) is `lexLe` / `pyLe` below.
* `hashlib.md5(...).hexdigest()` is embedded as a full executable MD5
  (`md5HexChars`) over UTF-8 byte lists, so `generate_question_id` is a
  concrete function.
* The three scrape orchestrators are embedded as folds over the
  (category, difficulty) work lists.  The network is abstracted as an
  environment `env : Nat → ApiResponse` giving the value `fetch_questions`
  returned for the n-th fetch call of the run, and each run records a
  trace of its API calls and rate-limit sleeps (`ApiEvent`).
* File I/O is out of scope (per the spec); the writers return the data
  they would serialize.
-/

/-! ## Python string comparison

Python compares strings lexicographically by Unicode code point.
`lexLe as bs` decides `as <= bs` in that order; `pyLe` is the induced
relation on `String`.  (Core's `String.le` is not used because its
decision procedure does not reduce in the kernel.) -/

/-- Lexicographic code-point comparison of char lists, as Python compares
strings. -/
def lexLe : List Char → List Char → Bool
  | [], _ => true
  | _ :: _, [] => false
  | a :: as, b :: bs =>
    if a.toNat < b.toNat then true
    else if b.toNat < a.toNat then false
    else lexLe as bs

/-- Python's `<=` on strings. -/
def pyLe (a b : String) : Prop := lexLe a.data b.data = true

instance : DecidableRel pyLe := fun _ _ => inferInstanceAs (Decidable (_ = true))

theorem lexLe_total (as bs : List Char) : lexLe as bs = true ∨ lexLe bs as = true := by
  induction as generalizing bs with
  | nil => left; rfl
  | cons a as ih =>
    cases bs with
    | nil => right; rfl
    | cons b bs =>
      rcases Nat.lt_trichotomy a.toNat b.toNat with h | h | h
      · left; simp [lexLe, h]
      · have hne : ¬ a.toNat < b.toNat := by omega
        have hne2 : ¬ b.toNat < a.toNat := by omega
        rcases ih bs with h2 | h2
        · left; simp [lexLe, hne, hne2, h2]
        · right; simp [lexLe, hne, hne2, h2]
      · right; simp [lexLe, h]

theorem lexLe_trans {as bs cs : List Char} (h1 : lexLe as bs = true)
    (h2 : lexLe bs cs = true) : lexLe as cs = true := by
  induction as generalizing bs cs with
  | nil => rfl
  | cons a as ih =>
    cases bs with
    | nil => simp [lexLe] at h1
    | cons b bs =>
      cases cs with
      | nil => simp [lexLe] at h2
      | cons c cs =>
        simp only [lexLe] at h1 h2 ⊢
        by_cases hab : a.toNat < b.toNat
        · by_cases hbc : b.toNat < c.toNat
          · have : a.toNat < c.toNat := Nat.lt_trans hab hbc
            simp [this]
          · simp only [hbc, if_false] at h2
            by_cases hcb : c.toNat < b.toNat
            · simp [hcb] at h2
            · have : a.toNat < c.toNat := by omega
              simp [this]
        · simp only [hab, if_false] at h1
          by_cases hba : b.toNat < a.toNat
          · simp [hba] at h1
          · simp only [hba, if_false] at h1
            by_cases hbc : b.toNat < c.toNat
            · have : a.toNat < c.toNat := by omega
              simp [this]
            · simp only [hbc, if_false] at h2
              by_cases hcb : c.toNat < b.toNat
              · simp [hcb] at h2
              · simp only [hcb, if_false] at h2
                have hnac : ¬ a.toNat < c.toNat := by omega
                have hnca : ¬ c.toNat < a.toNat := by omega
                simpa [hnac, hnca] using ih h1 h2

theorem lexLe_antisymm {as bs : List Char} (h1 : lexLe as bs = true)
    (h2 : lexLe bs as = true) : as = bs := by
  induction as generalizing bs with
  | nil =>
    cases bs with
    | nil => rfl
    | cons b bs => simp [lexLe] at h2
  | cons a as ih =>
    cases bs with
    | nil => simp [lexLe] at h1
    | cons b bs =>
      simp only [lexLe] at h1 h2
      by_cases hab : a.toNat < b.toNat
      · have : ¬ b.toNat < a.toNat := by omega
        simp [hab, this] at h2
      · by_cases hba : b.toNat < a.toNat
        · simp [hab, hba] at h1
        · have habeq : a.toNat = b.toNat := by omega
          have hchar : a = b := Char.ext (UInt32.ext_iff.mpr habeq)
          simp only [hab, hba, if_false] at h1 h2
          exact hchar ▸ congrArg (a :: ·) (ih h1 h2)

instance : IsTotal String pyLe := ⟨fun a b => lexLe_total a.data b.data⟩

instance : IsTrans String pyLe := ⟨fun _ _ _ h1 h2 => lexLe_trans h1 h2⟩

instance : IsAntisymm String pyLe :=
  ⟨fun a b h1 h2 => by
    cases a with
    | mk da => cases b with
      | mk db => exact congrArg String.mk (lexLe_antisymm h1 h2)⟩

/-- Python's `sorted` on a list of strings (ascending code-point order).
Any stable comparison sort gives the same result; on a linear order the
sorted permutation is unique, so `insertionSort` is a faithful model. -/
def pySorted (l : List String) : List String := List.insertionSort pyLe l

theorem pySorted_sorted (l : List String) : List.Sorted pyLe (pySorted l) :=
  List.sorted_insertionSort pyLe l

theorem pySorted_perm (l : List String) : (pySorted l).Perm l :=
  List.perm_insertionSort pyLe l

/-- Two permutations of the same multiset of strings sort identically. -/
theorem pySorted_eq_of_perm {xs ys : List String} (h : xs.Perm ys) :
    pySorted xs = pySorted ys :=
  List.eq_of_perm_of_sorted ((pySorted_perm xs).trans (h.trans (pySorted_perm ys).symm))
    (pySorted_sorted xs) (pySorted_sorted ys)

/-! ## MD5 (`hashlib.md5`)

`generate_question_id` calls `hashlib.md5(content.encode()).hexdigest()`.
This is the standard MD5 (RFC 1321) over the UTF-8 encoding of `content`,
embedded here executably with `Nat` arithmetic mod `2 ^ 32`. -/

/-- `2 ^ 32`. -/
def w32 : Nat := 4294967296

/-- Bitwise complement within 32 bits (inputs are < `2 ^ 32`). -/
def not32 (x : Nat) : Nat := 4294967295 - x

/-- Rotate a 32-bit word left by `s` bits. -/
def rotl32 (x s : Nat) : Nat := ((x <<< s) ||| (x >>> (32 - s))) % w32

/-- The 64 MD5 round constants `K[i] = floor(2^32 * abs(sin(i + 1)))`. -/
def md5K : List Nat :=
  [3614090360, 3905402710, 606105819, 3250441966, 4118548399, 1200080426,
   2821735955, 4249261313, 1770035416, 2336552879, 4294925233, 2304563134,
   1804603682, 4254626195, 2792965006, 1236535329, 4129170786, 3225465664,
   643717713, 3921069994, 3593408605, 38016083, 3634488961, 3889429448,
   568446438, 3275163606, 4107603335, 1163531501, 2850285829, 4243563512,
   1735328473, 2368359562, 4294588738, 2272392833, 1839030562, 4259657740,
   2763975236, 1272893353, 4139469664, 3200236656, 681279174, 3936430074,
   3572445317, 76029189, 3654602809, 3873151461, 530742520, 3299628645,
   4096336452, 1126891415, 2878612391, 4237533241, 1700485571, 2399980690,
   4293915773, 2240044497, 1873313359, 4264355552, 2734768916, 1309151649,
   4149444226, 3174756917, 718787259, 3951481745]

/-- The 64 MD5 per-round left-rotation amounts. -/
def md5S : List Nat :=
  [7, 12, 17, 22, 7, 12, 17, 22, 7, 12, 17, 22, 7, 12, 17, 22,
   5, 9, 14, 20, 5, 9, 14, 20, 5, 9, 14, 20, 5, 9, 14, 20,
   4, 11, 16, 23, 4, 11, 16, 23, 4, 11, 16, 23, 4, 11, 16, 23,
   6, 10, 15, 21, 6, 10, 15, 21, 6, 10, 15, 21, 6, 10, 15, 21]

/-- MD5 nonlinear function for round `i` applied to words `b`, `c`, `d`. -/
def md5F (i b c d : Nat) : Nat :=
  if i < 16 then (b &&& c) ||| (not32 b &&& d)
  else if i < 32 then (d &&& b) ||| (not32 d &&& c)
  else if i < 48 then b ^^^ c ^^^ d
  else c ^^^ (b ||| not32 d)

/-- MD5 message-word index for round `i`. -/
def md5G (i : Nat) : Nat :=
  if i < 16 then i
  else if i < 32 then (5 * i + 1) % 16
  else if i < 48 then (3 * i + 5) % 16
  else (7 * i) % 16

/-- One MD5 round on state `(a, b, c, d)` with message words `M`. -/
def md5Round (M : List Nat) (st : Nat × Nat × Nat × Nat) (i : Nat) :
    Nat × Nat × Nat × Nat :=
  let t := (st.1 + md5F i st.2.1 st.2.2.1 st.2.2.2 + md5K.getD i 0
    + M.getD (md5G i) 0) % w32
  (st.2.2.2, (st.2.1 + rotl32 t (md5S.getD i 0)) % w32, st.2.1, st.2.2.1)

/-- Process one 16-word block, adding the round result to the chaining
state. -/
def md5Block (st : Nat × Nat × Nat × Nat) (M : List Nat) :
    Nat × Nat × Nat × Nat :=
  let r := (List.range 64).foldl (md5Round M) st
  ((st.1 + r.1) % w32, (st.2.1 + r.2.1) % w32, (st.2.2.1 + r.2.2.1) % w32,
    (st.2.2.2 + r.2.2.2) % w32)

/-- A 32-bit word from four bytes, little-endian. -/
def leWord (b0 b1 b2 b3 : Nat) : Nat :=
  b0 + 256 * b1 + 65536 * b2 + 16777216 * b3

/-- Group a byte list into little-endian 32-bit words. -/
def toWords : List Nat → List Nat
  | b0 :: b1 :: b2 :: b3 :: rest => leWord b0 b1 b2 b3 :: toWords rest
  | _ => []

/-- Split a word list into 16-word blocks (`fuel` bounds the recursion and
is instantiated with the list length). -/
def chunks16 : Nat → List Nat → List (List Nat)
  | 0, _ => []
  | _ + 1, [] => []
  | fuel + 1, ws => ws.take 16 :: chunks16 fuel (ws.drop 16)

/-- The 64-bit message bit-length as eight little-endian bytes. -/
def lenBytes (l : Nat) : List Nat :=
  [l % 256, l / 256 % 256, l / 65536 % 256, l / 16777216 % 256,
   l / 4294967296 % 256, l / 1099511627776 % 256,
   l / 281474976710656 % 256, l / 72057594037927936 % 256]

/-- MD5 padding: append `0x80`, zero bytes to 56 mod 64, then the bit
length. -/
def md5Pad (msg : List Nat) : List Nat :=
  let len := msg.length
  let padZeros := (120 - (len + 1) % 64) % 64
  msg ++ [128] ++ List.replicate padZeros 0
    ++ lenBytes ((8 * len) % 18446744073709551616)

/-- The MD5 initial chaining state. -/
def md5Init : Nat × Nat × Nat × Nat :=
  (1732584193, 4023233417, 2562383102, 271733878)

/-- A 32-bit word as four bytes, little-endian. -/
def wordBytes (w : Nat) : List Nat :=
  [w % 256, w / 256 % 256, w / 65536 % 256, w / 16777216 % 256]

/-- The 16-byte MD5 digest of a byte list. -/
def md5Bytes (msg : List Nat) : List Nat :=
  let ws := toWords (md5Pad msg)
  let st := (chunks16 ws.length ws).foldl md5Block md5Init
  wordBytes st.1 ++ wordBytes st.2.1 ++ wordBytes st.2.2.1
    ++ wordBytes st.2.2.2

/-- The lowercase hex digit for a nibble: code 48 + n for 0-9, code
87 + n (so 97 = 'a' onward) for 10-15. -/
def hexChar (n : Nat) : Char :=
  if n < 10 then Char.ofNat (48 + n) else Char.ofNat (87 + n)

/-- The sixteen lowercase hex digits. -/
def hexDigits : List Char := (List.range 16).map hexChar

/-- A byte as two hex characters. -/
def byteHex (b : Nat) : List Char := [hexChar (b / 16), hexChar (b % 16)]

/-- `hashlib.md5(msg).hexdigest()` as a character list. -/
def md5HexChars (msg : List Nat) : List Char := (md5Bytes msg).flatMap byteHex

/-- `hashlib.md5(msg).hexdigest()`. -/
def md5_hexdigest (msg : List Nat) : String := String.mk (md5HexChars msg)

/-- UTF-8 encoding of one character, as `str.encode()` produces. -/
def utf8Bytes (c : Char) : List Nat :=
  let n := c.toNat
  if n < 128 then [n]
  else if n < 2048 then [192 + n / 64, 128 + n % 64]
  else if n < 65536 then [224 + n / 4096, 128 + n / 64 % 64, 128 + n % 64]
  else [240 + n / 262144, 128 + n / 4096 % 64, 128 + n / 64 % 64,
    128 + n % 64]

/-- `content.encode()`: the UTF-8 bytes of a string. -/
def utf8Encode (s : String) : List Nat := s.data.flatMap utf8Bytes

/-! ## Identity Hasher (`generate_question_id`, lines 73-76)

```python
content = question_data["question"]
    + "".join(sorted(question_data.get("incorrect_answers", [])))
return hashlib.md5(content.encode()).hexdigest()[:12]
``` -/

/-- The hashed content: question text concatenated with the sorted
incorrect answers. -/
def questionContent (question : String) (incorrect_answers : List String) :
    String :=
  question ++ String.join (pySorted incorrect_answers)

/-- `generate_question_id` applied to an entry with the given question
text and incorrect answers. -/
def generate_question_id (question : String)
    (incorrect_answers : List String) : String :=
  String.mk ((md5HexChars (utf8Encode
    (questionContent question incorrect_answers))).take 12)

/-! ## Data model -/

/-- A raw question as decoded from one API result entry. -/
structure RawQuestion where
  category : String
  difficulty : String
  question : String
  correct_answer : String
  incorrect_answers : List String
deriving DecidableEq

/-- The identifier the scrape loops compute for a fetched question. -/
def rawId (q : RawQuestion) : String :=
  generate_question_id q.question q.incorrect_answers

/-- A raw question after the loop sets `q["id"] = q_id`. -/
structure IdQuestion extends RawQuestion where
  id : String
deriving DecidableEq

/-- A Scrape Result: the decoded body returned by `fetch_questions`. -/
structure ApiResponse where
  response_code : Int
  results : List RawQuestion
deriving DecidableEq

/-- `RATE_LIMIT_DELAY = 5.5` (line 21), in seconds. -/
def RATE_LIMIT_DELAY : ℚ := 5.5

/-- `DIFFICULTIES` (line 51). -/
def DIFFICULTIES : List String := ["easy", "medium", "hard"]

/-- The fixed `CATEGORIES` catalog (lines 24-49), in insertion order. -/
def CATEGORIES : List (Nat × String) :=
  [(9, "General Knowledge"), (10, "Entertainment: Books"),
   (11, "Entertainment: Film"), (12, "Entertainment: Music"),
   (13, "Entertainment: Musicals & Theatres"),
   (14, "Entertainment: Television"), (15, "Entertainment: Video Games"),
   (16, "Entertainment: Board Games"), (17, "Science & Nature"),
   (18, "Science: Computers"), (19, "Science: Mathematics"),
   (20, "Mythology"), (21, "Sports"), (22, "Geography"), (23, "History"),
   (24, "Politics"), (25, "Art"), (26, "Celebrities"), (27, "Animals"),
   (28, "Vehicles"), (29, "Entertainment: Comics"),
   (30, "Science: Gadgets"),
   (31, "Entertainment: Japanese Anime & Manga"),
   (32, "Entertainment: Cartoon & Animations")]

/-! ## API Client (`fetch_questions`, lines 90-121)

The HTTP layer is abstracted: `transport` is the outcome of the
`requests.get` + `response.json()` calls inside the `try` block —
`.error` when any exception is raised, `.ok data` with the decoded JSON
body otherwise.  `unquote` stands for `urllib.parse.unquote` from the
standard library. -/

/-- The request parameters built in lines 92-103.  An optional filter is
added only when present (the code tests truthiness; every real category
id, difficulty string and token is truthy). -/
def fetchParams (amount : Nat) (category : Option Nat)
    (difficulty : Option String) (token : Option String) :
    List (String × String) :=
  [("amount", Nat.repr amount), ("type", "multiple"),
   ("encode", "url3986")]
    ++ (match category with | some c => [("category", Nat.repr c)] | none => [])
    ++ (match difficulty with | some d => [("difficulty", d)] | none => [])
    ++ (match token with | some t => [("token", t)] | none => [])

/-- Percent-decoding of one result entry (lines 112-116). -/
def unquoteQuestion (unquote : String → String) (q : RawQuestion) :
    RawQuestion :=
  { q with
    question := unquote q.question
    correct_answer := unquote q.correct_answer
    incorrect_answers := q.incorrect_answers.map unquote
    category := unquote q.category }

/-- `fetch_questions`: on any raised exception return
`{response_code: -1, results: []}`; on success decode the text fields of
a code-0 body.  The parameters determine the HTTP request, whose outcome
the `transport` argument abstracts. -/
def fetch_questions (unquote : String → String) (amount : Nat)
    (category : Option Nat) (difficulty : Option String)
    (token : Option String) (transport : Except String ApiResponse) :
    ApiResponse :=
  match transport with
  | .error _ => { response_code := -1, results := [] }
  | .ok data =>
    if data.response_code = 0 then
      { data with results := data.results.map (unquoteQuestion unquote) }
    else data

/-! ## Dedup Collector

The same three-line pattern appears in all three scrape loops
(lines 152-161, 280-285, 330-335) and in the merge loop (lines 373-377):
compute or read the identifier, skip it if seen, otherwise mark it seen
and append.  `offerG` is that pattern, parametrized by how the identifier
is obtained (`getId`) and what is appended (`conv`). -/

/-- One offer to the Dedup Collector over state (seen ids, accepted). -/
def offerG {α β : Type} (getId : α → String) (conv : α → β)
    (st : List String × List β) (q : α) : List String × List β :=
  let q_id := getId q
  if q_id ∈ st.1 then st else (q_id :: st.1, st.2 ++ [conv q])

/-- `q["id"] = q_id` before appending (lines 159-160). -/
def attachId (q : RawQuestion) : IdQuestion :=
  { toRawQuestion := q, id := rawId q }

/-- The scrape-side offer: compute the id, attach it, append. -/
def scrapeOffer :
    List String × List IdQuestion → RawQuestion →
    List String × List IdQuestion :=
  offerG rawId attachId

/-- Offer every result of a fetch, in order. -/
def offerList (st : List String × List IdQuestion)
    (qs : List RawQuestion) : List String × List IdQuestion :=
  qs.foldl scrapeOffer st

/-! ## Scrape Orchestrators

Each run records a trace of its API calls and rate-limit sleeps.  A
`.sleep` event is one `time.sleep(RATE_LIMIT_DELAY)` suspension.  The
`.fetch` event records the filters passed to `fetch_questions` and the
response code of the result the environment returned for that call. -/

/-- One API Client call or one rate-limit suspension. -/
inductive ApiEvent where
  | tokenRequest : ApiEvent
  | resetToken : ApiEvent
  | fetch (amount : Nat) (category : Option Nat)
      (difficulty : Option String) (token : Option String)
      (response_code : Int) : ApiEvent
  | sleep : ApiEvent
deriving DecidableEq

/-- Orchestrator state: fetches issued so far, the Dedup Collector state,
and the event trace. -/
structure SState where
  fetchCount : Nat
  seen_ids : List String
  all_questions : List IdQuestion
  trace : List ApiEvent
deriving DecidableEq

/-- State after `get_session_token()` and the first sleep
(lines 133-134, 271-272, 314-315). -/
def initState : SState :=
  { fetchCount := 0
    seen_ids := []
    all_questions := []
    trace := [.tokenRequest, .sleep] }

/-- The (category id, difficulty) work list: every given category id
paired with every difficulty, in order. -/
def pairsFor (ids : List Nat) : List (Nat × String) :=
  ids.flatMap fun c => DIFFICULTIES.map fun d => (c, d)

/-- One iteration of the full sweep (lines 141-193): fetch; on code 0
offer every result; on code 1 continue; on code 4 with a token reset,
sleep, retry once with the same filters and offer on success; otherwise
continue; finally sleep. -/
def scrapeAllStep (env : Nat → ApiResponse) (token : Option String)
    (s : SState) (cd : Nat × String) : SState :=
  let data := env s.fetchCount
  let ev1 := ApiEvent.fetch 50 (some cd.1) (some cd.2) token
    data.response_code
  if data.response_code = 0 then
    let st := offerList (s.seen_ids, s.all_questions) data.results
    { fetchCount := s.fetchCount + 1
      seen_ids := st.1
      all_questions := st.2
      trace := s.trace ++ [ev1, .sleep] }
  else if data.response_code = 1 then
    { s with
      fetchCount := s.fetchCount + 1
      trace := s.trace ++ [ev1, .sleep] }
  else if data.response_code = 4 then
    match token with
    | some _ =>
      let data2 := env (s.fetchCount + 1)
      let ev2 := ApiEvent.fetch 50 (some cd.1) (some cd.2) token
        data2.response_code
      if data2.response_code = 0 then
        let st := offerList (s.seen_ids, s.all_questions) data2.results
        { fetchCount := s.fetchCount + 2
          seen_ids := st.1
          all_questions := st.2
          trace := s.trace ++ [ev1, .resetToken, .sleep, ev2, .sleep] }
      else
        { s with
          fetchCount := s.fetchCount + 2
          trace := s.trace ++ [ev1, .resetToken, .sleep, ev2, .sleep] }
    | none =>
      { s with
        fetchCount := s.fetchCount + 1
        trace := s.trace ++ [ev1, .sleep] }
  else
    { s with
      fetchCount := s.fetchCount + 1
      trace := s.trace ++ [ev1, .sleep] }

/-- `scrape_all_questions` (lines 124-193): the full
category × difficulty sweep.  `env n` is the Scrape Result of the n-th
fetch call; `token` is the session token `get_session_token` returned. -/
def scrape_all_questions (env : Nat → ApiResponse)
    (token : Option String) : SState :=
  (pairsFor (CATEGORIES.map (·.1))).foldl (scrapeAllStep env token)
    initState

/-- One iteration of the quick sweep (lines 274-292): one unfiltered
fetch; offer every result on code 0, otherwise just log; sleep unless
this is the last request. -/
def scrapeQuickStep (env : Nat → ApiResponse) (token : Option String)
    (num_requests : Nat) (s : SState) (i : Nat) : SState :=
  let data := env s.fetchCount
  let ev1 := ApiEvent.fetch 50 none none token data.response_code
  let st := if data.response_code = 0 then
      offerList (s.seen_ids, s.all_questions) data.results
    else (s.seen_ids, s.all_questions)
  { fetchCount := s.fetchCount + 1
    seen_ids := st.1
    all_questions := st.2
    trace := s.trace ++ [ev1]
      ++ (if i < num_requests - 1 then [ApiEvent.sleep] else []) }

/-- `scrape_quick` (lines 263-306). -/
def scrape_quick (env : Nat → ApiResponse) (token : Option String)
    (num_requests : Nat) : SState :=
  (List.range num_requests).foldl
    (scrapeQuickStep env token num_requests) initState

/-- One iteration of the category-list sweep (lines 319-345): fetch; on
code 0 offer every result; on code 1 continue; on code 4 with a token
reset and sleep — without retrying; otherwise continue; finally sleep. -/
def scrapeCatStep (env : Nat → ApiResponse) (token : Option String)
    (s : SState) (cd : Nat × String) : SState :=
  let data := env s.fetchCount
  let ev1 := ApiEvent.fetch 50 (some cd.1) (some cd.2) token
    data.response_code
  if data.response_code = 0 then
    let st := offerList (s.seen_ids, s.all_questions) data.results
    { fetchCount := s.fetchCount + 1
      seen_ids := st.1
      all_questions := st.2
      trace := s.trace ++ [ev1, .sleep] }
  else if data.response_code = 1 then
    { s with
      fetchCount := s.fetchCount + 1
      trace := s.trace ++ [ev1, .sleep] }
  else if data.response_code = 4 then
    match token with
    | some _ =>
      { s with
        fetchCount := s.fetchCount + 1
        trace := s.trace ++ [ev1, .resetToken, .sleep, .sleep] }
    | none =>
      { s with
        fetchCount := s.fetchCount + 1
        trace := s.trace ++ [ev1, .sleep] }
  else
    { s with
      fetchCount := s.fetchCount + 1
      trace := s.trace ++ [ev1, .sleep] }

/-- `scrape_category_range` (lines 309-359). -/
def scrape_category_range (env : Nat → ApiResponse)
    (token : Option String) (cat_ids : List Nat) : SState :=
  (pairsFor cat_ids).foldl (scrapeCatStep env token) initState

/-! ## Format Writers (`save_flashcard_format`, lines 216-260)

File I/O is out of scope; the writer returns the per-category file
contents it would serialize, paired with the (unchanged) post-state of
the caller's question list. -/

/-- Python's `str.replace(pat, rep)` on char lists: replace every
non-overlapping occurrence, scanning left to right.  `fuel` bounds the
recursion; each step consumes at least one character when `pat` is
nonempty (every pattern used in the script is nonempty), so the caller
instantiates `fuel` with the string length. -/
def replaceFuel (pat rep : List Char) : Nat → List Char → List Char
  | 0, s => s
  | _ + 1, [] => []
  | fuel + 1, c :: cs =>
    if pat.isPrefixOf (c :: cs) then
      rep ++ replaceFuel pat rep fuel ((c :: cs).drop pat.length)
    else
      c :: replaceFuel pat rep fuel cs

/-- Python's `str.replace` on strings. -/
def pyReplace (s pat rep : String) : String :=
  String.mk (replaceFuel pat.data rep.data s.data.length s.data)

/-- The filesystem-safe category name (line 232):
`category.replace(": ", "_").replace(" ", "_").replace("&", "and")`. -/
def safe_name (category : String) : String :=
  pyReplace (pyReplace (pyReplace category ": " "_") " " "_") "&" "and"

/-- A question in flashcard form. -/
structure FlashQuestion where
  id : String
  question : String
  options : List String
  answer : String
  difficulty : String
  category : String
deriving DecidableEq

/-- The contents of one per-category flashcard file. -/
structure CategoryFile where
  category : String
  question_count : Nat
  questions : List FlashQuestion
deriving DecidableEq

/-- Flashcard conversion of one question (lines 236-249): build a fresh
`all_options` list from the incorrect answers plus the correct answer,
sort it in place, and assemble the flashcard entry.  The input `q` is
only read. -/
def flashcardQuestion (q : IdQuestion) : FlashQuestion :=
  let all_options := q.incorrect_answers ++ [q.correct_answer]
  let all_options := List.insertionSort pyLe all_options
  { id := q.id
    question := q.question
    options := all_options
    answer := q.correct_answer
    difficulty := q.difficulty
    category := q.category }

/-- Append `q` to its category's group, keeping first-encounter category
order (lines 220-225: a dict keyed by category, insertion-ordered). -/
def insertByCat (acc : List (String × List IdQuestion)) (q : IdQuestion) :
    List (String × List IdQuestion) :=
  match acc with
  | [] => [(q.category, [q])]
  | (c, qs) :: rest =>
    if c = q.category then (c, qs ++ [q]) :: rest
    else (c, qs) :: insertByCat rest q

/-- The `by_category` grouping of lines 220-225. -/
def groupByCategory (questions : List IdQuestion) :
    List (String × List IdQuestion) :=
  questions.foldl insertByCat []

/-- `save_flashcard_format`: group by category and build one file per
category.  The second component is the caller's question list as it
stands after the call — the function reads the questions but never
writes to them (the only mutation, `all_options.sort()`, targets the
fresh list built in `flashcardQuestion`). -/
def save_flashcard_format (questions : List IdQuestion) :
    List CategoryFile × List IdQuestion :=
  ((groupByCategory questions).map fun g =>
    let flashcard_questions := g.2.map flashcardQuestion
    { category := g.1
      question_count := flashcard_questions.length
      questions := flashcard_questions },
   questions)

/-! ## Merge writer (`merge_scraped_files`, lines 362-401)

Input files are the already-parsed JSON archives (the claim and this
embedding cover readable, well-formed inputs; an unreadable file is
skipped by the `except` branch and simply would not appear in the
list).  A question entry carries the fields the merge logic reads:
`id` (may be absent), `question`, and `incorrect_answers` (may be
absent; `generate_question_id` falls back to `[]`). -/

/-- A question entry loaded from an archive file. -/
structure MergeQuestion where
  id : Option String
  question : String
  incorrect_answers : Option (List String)
deriving DecidableEq

/-- `q.get("id", generate_question_id(q))` (line 374): the stored id if
present, else the computed one. -/
def effId (q : MergeQuestion) : String :=
  match q.id with
  | some i => i
  | none => generate_question_id q.question (q.incorrect_answers.getD [])

/-- The merge-side offer (lines 374-377): read or compute the id, skip
if seen, else append the entry unchanged. -/
def mergeOffer :
    List String × List MergeQuestion → MergeQuestion →
    List String × List MergeQuestion :=
  offerG effId (fun q => q)

/-- `all_categories.add(cat)` (lines 379-380): the category set, kept as
a duplicate-free list (its order is irrelevant — the output sorts it). -/
def catAdd (cats : List String) (c : String) : List String :=
  if c ∈ cats then cats else c :: cats

/-- One parsed archive input file. -/
structure ArchiveFile where
  questions : List MergeQuestion
  categories : List String
deriving DecidableEq

/-- The merged archive written at lines 387-393. -/
structure MergeResult where
  total_questions : Nat
  categories : List String
  difficulties : List String
  questions : List MergeQuestion
deriving DecidableEq

/-- Processing of one input file (lines 370-380): offer each of its
questions to the Dedup Collector, then add each of its categories. -/
def mergeFileStep
    (st : (List String × List MergeQuestion) × List String)
    (file : ArchiveFile) :
    (List String × List MergeQuestion) × List String :=
  (file.questions.foldl mergeOffer st.1,
   file.categories.foldl catAdd st.2)

/-- `merge_scraped_files`: fold over the input files, then assemble the
merged archive (`total_questions`, sorted categories, `DIFFICULTIES`,
and the accepted questions). -/
def merge_scraped_files (input_files : List ArchiveFile) : MergeResult :=
  let st := input_files.foldl mergeFileStep (([], []), [])
  { total_questions := st.1.2.length
    categories := pySorted st.2
    difficulties := DIFFICULTIES
    questions := st.1.2 }

/-! ## Collector lemmas

`newIds` / `newEntries` describe what a sequence of offers accepts:
the identifiers (resp. converted entries) of those questions whose
identifier had not been seen before — first occurrence wins, in
encounter order. -/

/-- The identifiers a sequence of offers accepts, in first-seen order. -/
def newIds {α : Type} (getId : α → String) :
    List String → List α → List String
  | _, [] => []
  | seen, q :: qs =>
    if getId q ∈ seen then newIds getId seen qs
    else getId q :: newIds getId (getId q :: seen) qs

/-- The entries a sequence of offers accepts, in first-seen order. -/
def newEntries {α β : Type} (getId : α → String) (conv : α → β) :
    List String → List α → List β
  | _, [] => []
  | seen, q :: qs =>
    if getId q ∈ seen then newEntries getId conv seen qs
    else conv q :: newEntries getId conv (getId q :: seen) qs

theorem foldl_offerG {α β : Type} (getId : α → String) (conv : α → β)
    (l : List α) :
    ∀ (seen : List String) (acc : List β),
      l.foldl (offerG getId conv) (seen, acc)
        = ((newIds getId seen l).reverse ++ seen,
           acc ++ newEntries getId conv seen l) := by
  induction l with
  | nil => intro seen acc; simp [newIds, newEntries]
  | cons q qs ih =>
    intro seen acc
    by_cases h : getId q ∈ seen
    · simp only [List.foldl_cons, offerG, h, if_pos, newIds, newEntries]
      simpa [h] using ih seen acc
    · simp only [List.foldl_cons, offerG, h, if_neg, newIds, newEntries]
      simp only [h, if_false]
      rw [ih (getId q :: seen) (acc ++ [conv q])]
      simp

theorem newEntries_map_id {α β : Type} (getId : α → String) (conv : α → β)
    (idOf : β → String) (hconv : ∀ a, idOf (conv a) = getId a)
    (l : List α) :
    ∀ seen, (newEntries getId conv seen l).map idOf = newIds getId seen l := by
  induction l with
  | nil => intro seen; rfl
  | cons q qs ih =>
    intro seen
    by_cases h : getId q ∈ seen
    · simp [newEntries, newIds, h, ih]
    · simp [newEntries, newIds, h, ih, hconv]

theorem newEntries_length {α β : Type} (getId : α → String) (conv : α → β)
    (l : List α) :
    ∀ seen, (newEntries getId conv seen l).length
      = (newIds getId seen l).length := by
  induction l with
  | nil => intro seen; rfl
  | cons q qs ih =>
    intro seen
    by_cases h : getId q ∈ seen
    · simp [newEntries, newIds, h, ih]
    · simp [newEntries, newIds, h, ih]

theorem newIds_not_mem_seen {α : Type} (getId : α → String) (l : List α) :
    ∀ seen x, x ∈ newIds getId seen l → x ∉ seen := by
  induction l with
  | nil => intro seen x h; simp [newIds] at h
  | cons q qs ih =>
    intro seen x hx
    simp only [newIds] at hx
    by_cases h : getId q ∈ seen
    · rw [if_pos h] at hx
      exact ih seen x hx
    · rw [if_neg h] at hx
      rcases List.mem_cons.mp hx with rfl | hx2
      · exact h
      · intro hs
        exact ih (getId q :: seen) x hx2 (List.mem_cons_of_mem _ hs)

theorem newIds_nodup {α : Type} (getId : α → String) (l : List α) :
    ∀ seen, (newIds getId seen l).Nodup := by
  induction l with
  | nil => intro seen; simp [newIds]
  | cons q qs ih =>
    intro seen
    simp only [newIds]
    by_cases h : getId q ∈ seen
    · rw [if_pos h]; exact ih seen
    · rw [if_neg h]
      refine List.nodup_cons.mpr ⟨fun hmem => ?_, ih (getId q :: seen)⟩
      exact newIds_not_mem_seen getId qs (getId q :: seen) (getId q) hmem
        (List.mem_cons_self _ _)

theorem newIds_toFinset {α : Type} (getId : α → String) (l : List α) :
    ∀ seen, (newIds getId seen l).toFinset
      = (l.map getId).toFinset \ seen.toFinset := by
  induction l with
  | nil => intro seen; simp [newIds]
  | cons q qs ih =>
    intro seen
    simp only [newIds]
    by_cases h : getId q ∈ seen
    · rw [if_pos h, ih seen]
      ext x
      simp only [List.map_cons, List.toFinset_cons, Finset.mem_sdiff,
        Finset.mem_insert, List.mem_toFinset]
      constructor
      · rintro ⟨hx, hns⟩; exact ⟨Or.inr hx, hns⟩
      · rintro ⟨hx | hx, hns⟩
        · exact absurd (hx ▸ h) hns
        · exact ⟨hx, hns⟩
    · rw [if_neg h]
      ext x
      simp only [List.toFinset_cons, Finset.mem_insert, List.map_cons,
        Finset.mem_sdiff, List.mem_toFinset, ih (getId q :: seen),
        List.mem_cons]
      constructor
      · rintro (rfl | ⟨hx, hns⟩)
        · exact ⟨Or.inl rfl, h⟩
        · exact ⟨Or.inr hx, fun hs => hns (Or.inr hs)⟩
      · rintro ⟨rfl | hx, hns⟩
        · exact Or.inl rfl
        · by_cases hxq : x = getId q
          · exact Or.inl hxq
          · refine Or.inr ⟨hx, fun hs => ?_⟩
            rcases hs with hs | hs
            · exact hxq hs
            · exact hns hs

/-- From the empty collector, the number of accepted entries is the
number of distinct identifiers offered. -/
theorem newIds_nil_length {α : Type} (getId : α → String) (l : List α) :
    (newIds getId [] l).length = (l.map getId).dedup.length := by
  have h1 : (newIds getId [] l).toFinset = (l.map getId).toFinset := by
    rw [newIds_toFinset]
    simp
  calc (newIds getId [] l).length
      = (newIds getId [] l).toFinset.card :=
        (List.toFinset_card_of_nodup (newIds_nodup getId l [])).symm
    _ = (l.map getId).toFinset.card := by rw [h1]
    _ = (l.map getId).dedup.length := List.card_toFinset _

/-! ## Claim C6: the Dedup Collector -/

/-- Claim C6: offering a question whose identifier has already been seen
leaves the accepted collection unchanged — in particular a second offer
of the same question is a no-op — so after any sequence of offers from
the empty collector the accepted identifiers are pairwise distinct and
the accepted collection carries exactly the first-seen identifiers in
first-seen insertion order (`newIds`). -/
theorem C6_dedup_collector :
    (∀ (st : List String × List IdQuestion) (q : RawQuestion),
      rawId q ∈ st.1 → scrapeOffer st q = st)
    ∧ (∀ (st : List String × List IdQuestion) (q : RawQuestion),
      scrapeOffer (scrapeOffer st q) q = scrapeOffer st q)
    ∧ (∀ qs : List RawQuestion,
      ((offerList ([], []) qs).2.map IdQuestion.id).Nodup
      ∧ (offerList ([], []) qs).2.map IdQuestion.id = newIds rawId [] qs) := by
  refine ⟨?_, ?_, ?_⟩
  · intro st q h
    simp [scrapeOffer, offerG, h]
  · intro st q
    by_cases h : rawId q ∈ st.1
    · simp [scrapeOffer, offerG, h]
    · simp [scrapeOffer, offerG, h]
  · intro qs
    have hfold : offerList ([], []) qs
        = ((newIds rawId [] qs).reverse ++ [],
           [] ++ newEntries rawId attachId [] qs) := by
      simp only [offerList, scrapeOffer]
      exact foldl_offerG rawId attachId qs [] []
    have h2 : (offerList ([], []) qs).2
        = newEntries rawId attachId [] qs := by
      rw [hfold]; simp
    have hmap : (offerList ([], []) qs).2.map IdQuestion.id
        = newIds rawId [] qs := by
      rw [h2, newEntries_map_id rawId attachId IdQuestion.id
        (fun _ => rfl) qs []]
    exact ⟨hmap ▸ newIds_nodup rawId qs [], hmap⟩

/-- Witness for C6: a state that has already seen the identifier of a
concrete question absorbs a further offer of it without change. -/
theorem C6_dedup_collector_witness :
    scrapeOffer ([rawId ⟨"c", "easy", "q?", "A", ["B"]⟩], [])
        ⟨"c", "easy", "q?", "A", ["B"]⟩
      = ([rawId ⟨"c", "easy", "q?", "A", ["B"]⟩], []) :=
  C6_dedup_collector.1 _ _ (List.mem_cons_self _ _)

/-! ## Claim C5: the merge writer -/

theorem foldl_mergeFileStep (input_files : List ArchiveFile) :
    ∀ st : (List String × List MergeQuestion) × List String,
      input_files.foldl mergeFileStep st
        = ((input_files.flatMap ArchiveFile.questions).foldl mergeOffer
            st.1,
           (input_files.flatMap ArchiveFile.categories).foldl catAdd
            st.2) := by
  induction input_files with
  | nil => intro st; simp
  | cons f fs ih =>
    intro st
    simp only [List.foldl_cons, List.flatMap_cons, List.foldl_append]
    exact ih (mergeFileStep st f)

theorem foldl_catAdd_nodup (l : List String) :
    ∀ cats : List String, cats.Nodup → (l.foldl catAdd cats).Nodup := by
  induction l with
  | nil => intro cats h; exact h
  | cons c cs ih =>
    intro cats h
    simp only [List.foldl_cons]
    refine ih (catAdd cats c) ?_
    by_cases hc : c ∈ cats
    · simpa [catAdd, hc] using h
    · simp only [catAdd, hc, if_neg, if_false]
      exact List.nodup_cons.mpr ⟨hc, h⟩

theorem foldl_catAdd_mem (l : List String) :
    ∀ (cats : List String) (x : String),
      x ∈ l.foldl catAdd cats ↔ x ∈ cats ∨ x ∈ l := by
  induction l with
  | nil => intro cats x; simp
  | cons c cs ih =>
    intro cats x
    simp only [List.foldl_cons, List.mem_cons]
    rw [ih (catAdd cats c) x]
    by_cases hc : c ∈ cats
    · rw [show catAdd cats c = cats from by
        simp only [catAdd]; rw [if_pos hc]]
      constructor
      · rintro (h | h)
        · exact Or.inl h
        · exact Or.inr (Or.inr h)
      · rintro (h | rfl | h)
        · exact Or.inl h
        · exact Or.inl hc
        · exact Or.inr h
    · rw [show catAdd cats c = c :: cats from by
        simp only [catAdd]; rw [if_neg hc]]
      simp only [List.mem_cons]
      tauto

/-- Claim C5: for every list of (readable) input archive files, the
merged output's `total_questions` is the number of distinct identifiers
across all input questions — an entry lacking an `id` contributing its
computed identifier — and its `categories` list is the sorted,
duplicate-free union of the inputs' `categories` lists. -/
theorem C5_merge_totals_and_categories (input_files : List ArchiveFile) :
    (merge_scraped_files input_files).total_questions
      = ((input_files.flatMap ArchiveFile.questions).map effId).dedup.length
    ∧ List.Sorted pyLe (merge_scraped_files input_files).categories
    ∧ (merge_scraped_files input_files).categories.Nodup
    ∧ (∀ c : String,
        c ∈ (merge_scraped_files input_files).categories
          ↔ ∃ f ∈ input_files, c ∈ f.categories) := by
  have hsplit := foldl_mergeFileStep input_files (([], []), [])
  have hq : (input_files.foldl mergeFileStep (([], []), [])).1.2
      = newEntries effId (fun q => q) []
          (input_files.flatMap ArchiveFile.questions) := by
    rw [hsplit]
    have := foldl_offerG effId (fun q => q)
      (input_files.flatMap ArchiveFile.questions) [] []
    simp only [mergeOffer]
    rw [this]
    simp
  have hc : (input_files.foldl mergeFileStep (([], []), [])).2
      = (input_files.flatMap ArchiveFile.categories).foldl catAdd [] := by
    rw [hsplit]
  refine ⟨?_, ?_, ?_, ?_⟩
  · show (input_files.foldl mergeFileStep (([], []), [])).1.2.length = _
    rw [hq, newEntries_length,
      newIds_nil_length effId (input_files.flatMap ArchiveFile.questions)]
  · exact pySorted_sorted _
  · show (pySorted (input_files.foldl mergeFileStep (([], []), [])).2).Nodup
    refine (pySorted_perm _).nodup_iff.mpr ?_
    rw [hc]
    exact foldl_catAdd_nodup _ [] List.nodup_nil
  · intro c
    show c ∈ pySorted (input_files.foldl mergeFileStep (([], []), [])).2 ↔ _
    rw [(pySorted_perm _).mem_iff, hc, foldl_catAdd_mem]
    simp [List.mem_flatMap]

/-! ## Claim C1: the Identity Hasher -/

theorem md5Bytes_length (msg : List Nat) : (md5Bytes msg).length = 16 := by
  simp [md5Bytes, wordBytes]

theorem flatMap_byteHex_length (l : List Nat) :
    (l.flatMap byteHex).length = 2 * l.length := by
  induction l with
  | nil => rfl
  | cons b bs ih =>
    simp only [List.flatMap_cons, List.length_append, ih, byteHex]
    simp
    omega

theorem md5HexChars_length (msg : List Nat) :
    (md5HexChars msg).length = 32 := by
  rw [md5HexChars, flatMap_byteHex_length, md5Bytes_length]

theorem hexChar_mem (n : Nat) (h : n < 16) : hexChar n ∈ hexDigits :=
  List.mem_map.mpr ⟨n, List.mem_range.mpr h, rfl⟩

theorem wordBytes_lt (w : Nat) : ∀ b ∈ wordBytes w, b < 256 := by
  intro b hb
  rw [wordBytes] at hb
  simp only [List.mem_cons, List.not_mem_nil, or_false] at hb
  rcases hb with rfl | rfl | rfl | rfl
  all_goals exact Nat.mod_lt _ (by norm_num)

theorem md5Bytes_lt (msg : List Nat) : ∀ b ∈ md5Bytes msg, b < 256 := by
  intro b hb
  rw [md5Bytes] at hb
  rcases List.mem_append.mp hb with hb2 | hb2
  rotate_left
  · exact wordBytes_lt _ b hb2
  rcases List.mem_append.mp hb2 with hb3 | hb3
  rotate_left
  · exact wordBytes_lt _ b hb3
  rcases List.mem_append.mp hb3 with hb4 | hb4
  · exact wordBytes_lt _ b hb4
  · exact wordBytes_lt _ b hb4

theorem md5HexChars_all_hex (msg : List Nat) :
    ∀ c ∈ md5HexChars msg, c ∈ hexDigits := by
  intro c hc
  rw [md5HexChars] at hc
  rcases List.mem_flatMap.mp hc with ⟨b, hbmem, hcb⟩
  have hblt : b < 256 := md5Bytes_lt msg b hbmem
  rcases List.mem_cons.mp hcb with rfl | hcb2
  · exact hexChar_mem _ (by omega)
  · rcases List.mem_cons.mp hcb2 with rfl | h
    · exact hexChar_mem _ (by omega)
    · cases h

/-- Claim C1: the Identity Hasher is invariant under permutation of the
incorrect answers, and the identifier is the 12-character prefix of the
MD5 hexdigest of the question text concatenated with the
lexicographically sorted incorrect answers — a string of exactly 12
lowercase hex characters. -/
theorem C1_identity_hasher (t : String) (xs ys : List String)
    (h : xs.Perm ys) :
    generate_question_id t xs = generate_question_id t ys
    ∧ generate_question_id t xs
        = String.mk ((md5HexChars (utf8Encode
            (t ++ String.join (pySorted xs)))).take 12)
    ∧ (generate_question_id t xs).length = 12
    ∧ ∀ c ∈ (generate_question_id t xs).data, c ∈ hexDigits := by
  refine ⟨?_, rfl, ?_, ?_⟩
  · rw [generate_question_id, generate_question_id, questionContent,
      questionContent, pySorted_eq_of_perm h]
  · show (String.mk _).length = 12
    rw [String.length]
    simp [List.length_take, md5HexChars_length]
  · intro c hc
    rw [generate_question_id] at hc
    exact md5HexChars_all_hex _ _ (List.take_subset _ _ hc)

/-- Witness for C1 at a concrete question: the two orderings of the
incorrect answers hash to the same 12-character identifier. -/
theorem C1_identity_hasher_witness :
    generate_question_id "What?" ["C", "AB"]
      = generate_question_id "What?" ["AB", "C"]
    ∧ (generate_question_id "What?" ["C", "AB"]).length = 12 :=
  ⟨(C1_identity_hasher "What?" ["C", "AB"] ["AB", "C"]
      (List.Perm.swap "AB" "C" [])).1,
   (C1_identity_hasher "What?" ["C", "AB"] ["AB", "C"]
      (List.Perm.swap "AB" "C" [])).2.2.1⟩

/-! ## Claim C4: flashcard conversion -/

/-- Counterexample to C4 as stated: when the correct answer also occurs
among the incorrect answers, the options list contains it twice, not
exactly once — the conversion concatenates and sorts without filtering
duplicates. -/
theorem C4_flashcard_options_counterexample :
    ((flashcardQuestion
        ⟨⟨"Geography", "easy", "Capital?", "Paris", ["Paris"]⟩,
          "badid"⟩).options.count "Paris" = 2)
    ∧ ¬ ((flashcardQuestion
        ⟨⟨"Geography", "easy", "Capital?", "Paris", ["Paris"]⟩,
          "badid"⟩).options.count "Paris" = 1) := by
  exact ⟨by decide, by decide⟩

/-- Claim C4 (amended): for every raw question, the flashcard options
are the incorrect answers plus the correct answer sorted ascending (a
sorted permutation of `incorrect ++ [correct]`), and the answer field
equals the correct answer and is a member of the options; the correct
answer's multiplicity in the options is one more than its multiplicity
among the incorrect answers, so the options contain it exactly once
provided it does not already occur among the incorrect answers. -/
theorem C4_flashcard_options (q : IdQuestion) :
    (flashcardQuestion q).options.Perm
      (q.incorrect_answers ++ [q.correct_answer])
    ∧ List.Sorted pyLe (flashcardQuestion q).options
    ∧ (flashcardQuestion q).answer = q.correct_answer
    ∧ (flashcardQuestion q).answer ∈ (flashcardQuestion q).options
    ∧ (flashcardQuestion q).options.count q.correct_answer
        = q.incorrect_answers.count q.correct_answer + 1
    ∧ (q.correct_answer ∉ q.incorrect_answers →
        (flashcardQuestion q).options.count q.correct_answer = 1) := by
  have hperm : (flashcardQuestion q).options.Perm
      (q.incorrect_answers ++ [q.correct_answer]) :=
    List.perm_insertionSort pyLe _
  have hcount : (flashcardQuestion q).options.count q.correct_answer
      = q.incorrect_answers.count q.correct_answer + 1 := by
    rw [hperm.count_eq, List.count_append]
    simp
  refine ⟨hperm, List.sorted_insertionSort pyLe _, rfl, ?_, hcount, ?_⟩
  · exact hperm.mem_iff.mpr
      (List.mem_append_right _ (List.mem_singleton_self _))
  · intro h
    rw [hcount, List.count_eq_zero.mpr h]

/-- Witness for C4 at the spec's example: correct "Paris" with
incorrect ["London", "Berlin", "Madrid"] yields exactly
["Berlin", "London", "Madrid", "Paris"], with "Paris" appearing once. -/
theorem C4_flashcard_options_witness :
    (flashcardQuestion
        ⟨⟨"Geography", "easy", "Capital?", "Paris",
          ["London", "Berlin", "Madrid"]⟩, "someid"⟩).options
      = ["Berlin", "London", "Madrid", "Paris"]
    ∧ (flashcardQuestion
        ⟨⟨"Geography", "easy", "Capital?", "Paris",
          ["London", "Berlin", "Madrid"]⟩, "someid"⟩).options.count
        "Paris" = 1 :=
  ⟨by decide,
   (C4_flashcard_options
      ⟨⟨"Geography", "easy", "Capital?", "Paris",
        ["London", "Berlin", "Madrid"]⟩, "someid"⟩).2.2.2.2.2
     (by decide)⟩

/-! ## Claim C9: the filesystem-safe category name -/

/-- Claim C9: the safe name is obtained by replacing ": " with "_", then
remaining spaces with "_", then "&" with "and"; in particular
"Entertainment: Video Games" maps to "Entertainment_Video_Games" and
"Science & Nature" maps to "Science_and_Nature". -/
theorem C9_safe_name :
    (∀ category : String,
      safe_name category
        = pyReplace (pyReplace (pyReplace category ": " "_") " " "_")
            "&" "and")
    ∧ safe_name "Entertainment: Video Games"
        = "Entertainment_Video_Games"
    ∧ safe_name "Science & Nature" = "Science_and_Nature" :=
  ⟨fun _ => rfl, by decide, by decide⟩

/-! ## Claim C10: the flashcard writer leaves its input unchanged -/

/-- Claim C10: `save_flashcard_format` builds fresh options lists and
never writes to the question records it was handed: the post-call state
of the input list is the input itself, with every field — category,
question, correct answer, incorrect answers, difficulty, id — intact. -/
theorem C10_flashcard_frame (questions : List IdQuestion) :
    (save_flashcard_format questions).2 = questions
    ∧ (save_flashcard_format questions).2.map
        (fun q => q.category) = questions.map (fun q => q.category)
    ∧ (save_flashcard_format questions).2.map
        (fun q => q.question) = questions.map (fun q => q.question)
    ∧ (save_flashcard_format questions).2.map
        (fun q => q.correct_answer)
        = questions.map (fun q => q.correct_answer)
    ∧ (save_flashcard_format questions).2.map
        (fun q => q.incorrect_answers)
        = questions.map (fun q => q.incorrect_answers)
    ∧ (save_flashcard_format questions).2.map
        (fun q => q.difficulty) = questions.map (fun q => q.difficulty)
    ∧ (save_flashcard_format questions).2.map
        (fun q => q.id) = questions.map (fun q => q.id) :=
  ⟨rfl, rfl, rfl, rfl, rfl, rfl, rfl⟩

/-! ## Claim C7: transport failure inside the fetch -/

/-- Claim C7: whatever the request parameters, if the HTTP call inside
`fetch_questions` raises — network error, timeout, or a body that fails
to decode — the function returns response code −1 with an empty results
list; the exception is absorbed, never propagated to the caller. -/
theorem C7_fetch_transport_failure (unquote : String → String)
    (amount : Nat) (category : Option Nat) (difficulty : Option String)
    (token : Option String) (err : String) :
    fetch_questions unquote amount category difficulty token
        (Except.error err)
      = { response_code := -1, results := [] } := rfl

/-! ## Rate-limit spacing of the traces -/

/-- Whether an event is an API Client call (anything but a sleep). -/
def isCall : ApiEvent → Bool
  | .sleep => false
  | _ => true

/-- Whether an event is a fetch call. -/
def isFetchEv : ApiEvent → Bool
  | .fetch _ _ _ _ _ => true
  | _ => false

/-- Whether an event is the token-reset call. -/
def isResetEv : ApiEvent → Bool
  | .resetToken => true
  | _ => false

/-- Strict spacing: two adjacent events may not both be API calls. -/
def strictPairOk : ApiEvent → ApiEvent → Bool
  | .sleep, _ => true
  | _, .sleep => true
  | _, _ => false

/-- Spacing up to the one exception the code exhibits: a token reset may
immediately follow the code-4 fetch that triggered it. -/
def pairOk : ApiEvent → ApiEvent → Bool
  | .sleep, _ => true
  | _, .sleep => true
  | .fetch _ _ _ _ c, .resetToken => c == 4
  | _, _ => false

/-- Every adjacent pair of the list satisfies `p`. -/
def adjOk (p : ApiEvent → ApiEvent → Bool) : List ApiEvent → Bool
  | a :: b :: rest => p a b && adjOk p (b :: rest)
  | _ => true

theorem pairOk_sleep_left (b : ApiEvent) : pairOk .sleep b = true := by
  cases b <;> rfl

theorem adjOk_append (p : ApiEvent → ApiEvent → Bool)
    (xs ys : List ApiEvent) (hx : adjOk p xs = true)
    (hy : adjOk p ys = true)
    (hb : ∀ a b, xs.getLast? = some a → ys.head? = some b → p a b = true) :
    adjOk p (xs ++ ys) = true := by
  induction xs with
  | nil => simpa using hy
  | cons a xs ih =>
    cases xs with
    | nil =>
      cases ys with
      | nil => simpa using hx
      | cons b ys2 =>
        have hpb : p a b = true := hb a b rfl rfl
        simp only [List.cons_append, List.nil_append, adjOk, hpb,
          Bool.true_and]
        exact hy
    | cons a2 xs2 =>
      simp only [adjOk, Bool.and_eq_true] at hx
      have ihr := ih hx.2 (fun x y hgl hhd =>
        hb x y (by rwa [List.getLast?_cons_cons]) hhd)
      simp only [List.cons_append]
      have : adjOk p (a :: a2 :: (xs2 ++ ys))
          = (p a a2 && adjOk p (a2 :: (xs2 ++ ys))) := rfl
      rw [this, hx.1, Bool.true_and]
      simpa using ihr

theorem adjOk_append_last (p : ApiEvent → ApiEvent → Bool)
    (xs ys : List ApiEvent) (hne : ys ≠ []) :
    (xs ++ ys).getLast? = ys.getLast? := by
  rw [List.getLast?_append]
  cases hl : ys.getLast? with
  | none => exact absurd (List.getLast?_eq_none_iff.mp hl) hne
  | some a => rfl

/-- The trace invariant every orchestrator maintains: adjacent API calls
are separated by a sleep (up to the code-4 fetch / reset exception), and
the trace ends with a sleep. -/
def TraceOk (s : SState) : Prop :=
  adjOk pairOk s.trace = true
  ∧ s.trace.getLast? = some ApiEvent.sleep

theorem initState_TraceOk : TraceOk initState := ⟨rfl, rfl⟩

/-- Appending a well-spaced chunk that ends in a sleep preserves the
invariant. -/
theorem TraceOk_append (t chunk : List ApiEvent)
    (h1 : adjOk pairOk t = true) (h2 : t.getLast? = some ApiEvent.sleep)
    (hchunk : adjOk pairOk chunk = true)
    (hlast : chunk.getLast? = some ApiEvent.sleep) :
    adjOk pairOk (t ++ chunk) = true
    ∧ (t ++ chunk).getLast? = some ApiEvent.sleep := by
  have hne : chunk ≠ [] := by
    intro h; rw [h] at hlast; cases hlast
  constructor
  · refine adjOk_append pairOk t chunk h1 hchunk ?_
    intro a b hga hhb
    rw [h2] at hga
    cases hga
    exact pairOk_sleep_left b
  · rw [adjOk_append_last pairOk t chunk hne, hlast]

theorem scrapeAllStep_TraceOk (env : Nat → ApiResponse)
    (token : Option String) (s : SState) (cd : Nat × String)
    (h : TraceOk s) : TraceOk (scrapeAllStep env token s cd) := by
  obtain ⟨h1, h2⟩ := h
  cases token with
  | none =>
    simp only [scrapeAllStep]
    by_cases h0 : (env s.fetchCount).response_code = 0
    · rw [if_pos h0]
      refine TraceOk_append s.trace _ h1 h2 ?_ ?_ <;> rfl
    · by_cases hc1 : (env s.fetchCount).response_code = 1
      · rw [if_neg h0, if_pos hc1]
        refine TraceOk_append s.trace _ h1 h2 ?_ ?_ <;> rfl
      · by_cases hc4 : (env s.fetchCount).response_code = 4
        · rw [if_neg h0, if_neg hc1, if_pos hc4]
          refine TraceOk_append s.trace _ h1 h2 ?_ ?_ <;> rfl
        · rw [if_neg h0, if_neg hc1, if_neg hc4]
          refine TraceOk_append s.trace _ h1 h2 ?_ ?_ <;> rfl
  | some tok =>
    simp only [scrapeAllStep]
    by_cases h0 : (env s.fetchCount).response_code = 0
    · rw [if_pos h0]
      refine TraceOk_append s.trace _ h1 h2 ?_ ?_ <;> rfl
    · by_cases hc1 : (env s.fetchCount).response_code = 1
      · rw [if_neg h0, if_pos hc1]
        refine TraceOk_append s.trace _ h1 h2 ?_ ?_ <;> rfl
      · by_cases hc4 : (env s.fetchCount).response_code = 4
        · rw [if_neg h0, if_neg hc1, if_pos hc4, hc4]
          by_cases hr : (env (s.fetchCount + 1)).response_code = 0
          · rw [if_pos hr]
            refine TraceOk_append s.trace _ h1 h2 ?_ ?_ <;> rfl
          · rw [if_neg hr]
            refine TraceOk_append s.trace _ h1 h2 ?_ ?_ <;> rfl
        · rw [if_neg h0, if_neg hc1, if_neg hc4]
          refine TraceOk_append s.trace _ h1 h2 ?_ ?_ <;> rfl

theorem scrapeCatStep_TraceOk (env : Nat → ApiResponse)
    (token : Option String) (s : SState) (cd : Nat × String)
    (h : TraceOk s) : TraceOk (scrapeCatStep env token s cd) := by
  obtain ⟨h1, h2⟩ := h
  cases token with
  | none =>
    simp only [scrapeCatStep]
    by_cases h0 : (env s.fetchCount).response_code = 0
    · rw [if_pos h0]
      refine TraceOk_append s.trace _ h1 h2 ?_ ?_ <;> rfl
    · by_cases hc1 : (env s.fetchCount).response_code = 1
      · rw [if_neg h0, if_pos hc1]
        refine TraceOk_append s.trace _ h1 h2 ?_ ?_ <;> rfl
      · by_cases hc4 : (env s.fetchCount).response_code = 4
        · rw [if_neg h0, if_neg hc1, if_pos hc4]
          refine TraceOk_append s.trace _ h1 h2 ?_ ?_ <;> rfl
        · rw [if_neg h0, if_neg hc1, if_neg hc4]
          refine TraceOk_append s.trace _ h1 h2 ?_ ?_ <;> rfl
  | some tok =>
    simp only [scrapeCatStep]
    by_cases h0 : (env s.fetchCount).response_code = 0
    · rw [if_pos h0]
      refine TraceOk_append s.trace _ h1 h2 ?_ ?_ <;> rfl
    · by_cases hc1 : (env s.fetchCount).response_code = 1
      · rw [if_neg h0, if_pos hc1]
        refine TraceOk_append s.trace _ h1 h2 ?_ ?_ <;> rfl
      · by_cases hc4 : (env s.fetchCount).response_code = 4
        · rw [if_neg h0, if_neg hc1, if_pos hc4, hc4]
          refine TraceOk_append s.trace _ h1 h2 ?_ ?_ <;> rfl
        · rw [if_neg h0, if_neg hc1, if_neg hc4]
          refine TraceOk_append s.trace _ h1 h2 ?_ ?_ <;> rfl

theorem foldl_step_TraceOk {γ : Type} (step : SState → γ → SState)
    (hstep : ∀ s c, TraceOk s → TraceOk (step s c)) (l : List γ) :
    ∀ s : SState, TraceOk s → TraceOk (l.foldl step s) := by
  induction l with
  | nil => intro s h; exact h
  | cons c cs ih => intro s h; exact ih (step s c) (hstep s c h)

theorem scrape_all_TraceOk (env : Nat → ApiResponse)
    (token : Option String) : TraceOk (scrape_all_questions env token) := by
  have h := foldl_step_TraceOk (scrapeAllStep env token)
    (scrapeAllStep_TraceOk env token) (pairsFor (CATEGORIES.map (·.1)))
    initState initState_TraceOk
  exact h

theorem scrape_category_TraceOk (env : Nat → ApiResponse)
    (token : Option String) (cat_ids : List Nat) :
    TraceOk (scrape_category_range env token cat_ids) := by
  have h := foldl_step_TraceOk (scrapeCatStep env token)
    (scrapeCatStep_TraceOk env token) (pairsFor cat_ids)
    initState initState_TraceOk
  exact h

/-- The quick-sweep step always appends its fetch event and, when more
requests follow, a sleep. -/
theorem scrapeQuickStep_trace (env : Nat → ApiResponse)
    (token : Option String) (num_requests : Nat) (s : SState) (i : Nat) :
    (scrapeQuickStep env token num_requests s i).trace
      = s.trace
        ++ [ApiEvent.fetch 50 none none token
            (env s.fetchCount).response_code]
        ++ (if i < num_requests - 1 then [ApiEvent.sleep] else []) := rfl

theorem scrapeQuickStep_TraceOk (env : Nat → ApiResponse)
    (token : Option String) (num_requests : Nat) (s : SState) (i : Nat)
    (hi : i < num_requests - 1) (h : TraceOk s) :
    TraceOk (scrapeQuickStep env token num_requests s i) := by
  obtain ⟨h1, h2⟩ := h
  have hT := TraceOk_append s.trace
    [ApiEvent.fetch 50 none none token (env s.fetchCount).response_code,
     ApiEvent.sleep] h1 h2 rfl rfl
  constructor
  · rw [scrapeQuickStep_trace, if_pos hi, List.append_assoc]
    exact hT.1
  · rw [scrapeQuickStep_trace, if_pos hi, List.append_assoc]
    exact hT.2

theorem scrape_quick_fold_TraceOk (env : Nat → ApiResponse)
    (token : Option String) (num_requests : Nat) :
    ∀ k, k ≤ num_requests - 1 →
      TraceOk ((List.range k).foldl
        (scrapeQuickStep env token num_requests) initState) := by
  intro k
  induction k with
  | zero => intro _; exact initState_TraceOk
  | succ m ih =>
    intro hk
    rw [List.range_succ, List.foldl_append]
    exact scrapeQuickStep_TraceOk env token num_requests _ m hk
      (ih (Nat.le_of_succ_le hk))

/-- The quick sweep's full trace is well spaced (its final fetch is not
followed by a sleep, but nothing follows it either). -/
theorem scrape_quick_adjOk (env : Nat → ApiResponse)
    (token : Option String) (num_requests : Nat) :
    adjOk pairOk (scrape_quick env token num_requests).trace = true := by
  cases num_requests with
  | zero => rfl
  | succ n =>
    rw [scrape_quick, List.range_succ, List.foldl_append]
    have hT := scrape_quick_fold_TraceOk env token (n + 1) n (by omega)
    obtain ⟨h1, h2⟩ := hT
    rw [List.foldl_cons, List.foldl_nil, scrapeQuickStep_trace]
    have hnot : ¬ n < (n + 1) - 1 := by omega
    rw [if_neg hnot, List.append_nil]
    refine adjOk_append pairOk _ _ h1 rfl ?_
    intro a b hga hhb
    rw [h2] at hga
    cases hga
    cases hhb
    rfl

/-! ## Claim C8: rate limiting between API calls -/

/-- Counterexample to C8 as stated: in a category-list run whose first
fetch returns code 4, the token reset is issued immediately after that
fetch call, with no rate-limit sleep between the two API calls (the same
adjacency occurs in the full sweep). -/
theorem C8_rate_limiter_counterexample :
    adjOk strictPairOk
      (scrape_category_range (fun _ => ⟨4, []⟩) (some "tok") [9]).trace
      = false := by decide

/-- Claim C8 (amended): in every run of each orchestrator, any two
adjacent API Client calls are separated by a rate-limit sleep of
`RATE_LIMIT_DELAY = 5.5` time units, with the single exception the code
exhibits: the `reset_token` call triggered by a code-4 fetch follows
that fetch immediately, with no intervening sleep (`pairOk`).  The quick
sweep's final fetch is followed by no sleep, but no API call follows
it. -/
theorem C8_rate_limiter (env : Nat → ApiResponse) (token : Option String)
    (num_requests : Nat) (cat_ids : List Nat) :
    adjOk pairOk (scrape_all_questions env token).trace = true
    ∧ adjOk pairOk (scrape_quick env token num_requests).trace = true
    ∧ adjOk pairOk (scrape_category_range env token cat_ids).trace = true
    ∧ RATE_LIMIT_DELAY = 11 / 2 :=
  ⟨(scrape_all_TraceOk env token).1,
   scrape_quick_adjOk env token num_requests,
   (scrape_category_TraceOk env token cat_ids).1,
   by norm_num [RATE_LIMIT_DELAY]⟩

/-! ## Claims C2 and C3: the response-code policy -/

theorem scrapeAllStep_code4_some (env : Nat → ApiResponse) (tok : String)
    (s : SState) (cd : Nat × String)
    (h4 : (env s.fetchCount).response_code = 4) :
    (scrapeAllStep env (some tok) s cd).trace
      = s.trace
        ++ [ApiEvent.fetch 50 (some cd.1) (some cd.2) (some tok) 4,
            .resetToken, .sleep,
            ApiEvent.fetch 50 (some cd.1) (some cd.2) (some tok)
              (env (s.fetchCount + 1)).response_code,
            .sleep]
    ∧ (scrapeAllStep env (some tok) s cd).fetchCount = s.fetchCount + 2
    ∧ ((env (s.fetchCount + 1)).response_code ≠ 0 →
        (scrapeAllStep env (some tok) s cd).all_questions
          = s.all_questions)
    ∧ ((env (s.fetchCount + 1)).response_code = 0 →
        (scrapeAllStep env (some tok) s cd).all_questions
          = (offerList (s.seen_ids, s.all_questions)
              (env (s.fetchCount + 1)).results).2) := by
  simp only [scrapeAllStep]
  rw [if_neg (by rw [h4]; decide), if_neg (by rw [h4]; decide),
    if_pos h4, h4]
  by_cases hr : (env (s.fetchCount + 1)).response_code = 0
  · rw [if_pos hr]
    exact ⟨rfl, rfl, fun h => absurd hr h, fun _ => rfl⟩
  · rw [if_neg hr]
    exact ⟨rfl, rfl, fun _ => rfl, fun h => absurd h hr⟩

theorem scrapeAllStep_code4_none (env : Nat → ApiResponse)
    (s : SState) (cd : Nat × String)
    (h4 : (env s.fetchCount).response_code = 4) :
    scrapeAllStep env none s cd
      = { s with
          fetchCount := s.fetchCount + 1
          trace := s.trace
            ++ [ApiEvent.fetch 50 (some cd.1) (some cd.2) none 4,
                .sleep] } := by
  simp only [scrapeAllStep]
  rw [if_neg (by rw [h4]; decide), if_neg (by rw [h4]; decide),
    if_pos h4, h4]

theorem scrapeQuickStep_nonzero (env : Nat → ApiResponse)
    (token : Option String) (num_requests : Nat) (s : SState) (i : Nat)
    (h : (env s.fetchCount).response_code ≠ 0) :
    (scrapeQuickStep env token num_requests s i).all_questions
        = s.all_questions
    ∧ (scrapeQuickStep env token num_requests s i).seen_ids = s.seen_ids
    ∧ (scrapeQuickStep env token num_requests s i).fetchCount
        = s.fetchCount + 1 := by
  simp only [scrapeQuickStep]
  rw [if_neg h]
  exact ⟨rfl, rfl, trivial⟩

theorem scrapeQuickStep_countP_reset (env : Nat → ApiResponse)
    (token : Option String) (num_requests : Nat) (s : SState) (i : Nat) :
    (scrapeQuickStep env token num_requests s i).trace.countP isResetEv
      = s.trace.countP isResetEv := by
  rw [scrapeQuickStep_trace, List.countP_append, List.countP_append]
  by_cases hi : i < num_requests - 1
  · rw [if_pos hi]
    simp [List.countP_cons, isResetEv]
  · rw [if_neg hi]
    simp [List.countP_cons, isResetEv]

/-- No quick-sweep run ever issues a token-reset call. -/
theorem scrape_quick_fold_no_reset (env : Nat → ApiResponse)
    (token : Option String) (num_requests : Nat) (l : List Nat) :
    ∀ s : SState,
      ((l.foldl (scrapeQuickStep env token num_requests) s).trace.countP
        isResetEv) = s.trace.countP isResetEv := by
  induction l with
  | nil => intro s; rfl
  | cons i is ih =>
    intro s
    rw [List.foldl_cons, ih, scrapeQuickStep_countP_reset]

theorem scrape_quick_no_reset (env : Nat → ApiResponse)
    (token : Option String) (num_requests : Nat) :
    (scrape_quick env token num_requests).trace.countP isResetEv = 0 := by
  have h := scrape_quick_fold_no_reset env token num_requests
    (List.range num_requests) initState
  exact h

theorem scrapeCatStep_code4_some (env : Nat → ApiResponse) (tok : String)
    (s : SState) (cd : Nat × String)
    (h4 : (env s.fetchCount).response_code = 4) :
    (scrapeCatStep env (some tok) s cd).trace
      = s.trace
        ++ [ApiEvent.fetch 50 (some cd.1) (some cd.2) (some tok) 4,
            .resetToken, .sleep, .sleep]
    ∧ (scrapeCatStep env (some tok) s cd).all_questions = s.all_questions
    ∧ (scrapeCatStep env (some tok) s cd).seen_ids = s.seen_ids
    ∧ (scrapeCatStep env (some tok) s cd).fetchCount
        = s.fetchCount + 1 := by
  simp only [scrapeCatStep]
  rw [if_neg (by rw [h4]; decide), if_neg (by rw [h4]; decide),
    if_pos h4, h4]
  exact ⟨rfl, rfl, rfl, rfl⟩

/-- Counterexample to C2 as stated: a quick-sweep run whose single fetch
returns code 4 issues no `reset_token` call and no retry — its trace
holds exactly one fetch and no reset event, so the three orchestrators
do not share the code-4 policy. -/
theorem C2_shared_policy_counterexample :
    (scrape_quick (fun _ => ⟨4, []⟩) (some "tok") 1).trace
      = [.tokenRequest, .sleep, .fetch 50 none none (some "tok") 4]
    ∧ (scrape_quick (fun _ => ⟨4, []⟩) (some "tok") 1).trace.countP
        isResetEv = 0
    ∧ (scrape_quick (fun _ => ⟨4, []⟩) (some "tok") 1).trace.countP
        isFetchEv = 1 :=
  ⟨by decide, by decide, by decide⟩

/-- Claim C2 (amended): the three orchestrators do not share one code-4
policy.  When a fetch returns code 4 and a session token is held: the
full sweep calls `reset_token`, sleeps one interval, retries the same
fetch exactly once with the same filters, and applies success handling
to the retry result; the quick sweep applies no token-exhaustion
handling at all — no reset (no quick run ever issues one), no retry,
and nothing accepted from that fetch; the category-list sweep calls
`reset_token` and sleeps but does not retry — it issues exactly one
fetch for the combination and accepts nothing. -/
theorem C2_response_code_policies (env : Nat → ApiResponse) (tok : String)
    (s : SState) (cd : Nat × String) (num_requests i : Nat)
    (token2 : Option String) (n2 : Nat)
    (h4 : (env s.fetchCount).response_code = 4) :
    (scrapeAllStep env (some tok) s cd).trace
      = s.trace
        ++ [ApiEvent.fetch 50 (some cd.1) (some cd.2) (some tok) 4,
            .resetToken, .sleep,
            ApiEvent.fetch 50 (some cd.1) (some cd.2) (some tok)
              (env (s.fetchCount + 1)).response_code, .sleep]
    ∧ ((env (s.fetchCount + 1)).response_code = 0 →
        (scrapeAllStep env (some tok) s cd).all_questions
          = (offerList (s.seen_ids, s.all_questions)
              (env (s.fetchCount + 1)).results).2)
    ∧ (scrapeQuickStep env (some tok) num_requests s i).all_questions
        = s.all_questions
    ∧ (scrape_quick env token2 n2).trace.countP isResetEv = 0
    ∧ (scrapeCatStep env (some tok) s cd).trace
        = s.trace
          ++ [ApiEvent.fetch 50 (some cd.1) (some cd.2) (some tok) 4,
              .resetToken, .sleep, .sleep]
    ∧ (scrapeCatStep env (some tok) s cd).all_questions = s.all_questions
    ∧ (scrapeCatStep env (some tok) s cd).fetchCount
        = s.fetchCount + 1 := by
  obtain ⟨ht, hfc, hfail, hsucc⟩ := scrapeAllStep_code4_some env tok s cd h4
  obtain ⟨ct, ca, cs2, cf⟩ := scrapeCatStep_code4_some env tok s cd h4
  have hq := scrapeQuickStep_nonzero env (some tok) num_requests s i
    (by rw [h4]; decide)
  exact ⟨ht, hsucc, hq.1, scrape_quick_no_reset env token2 n2, ct, ca, cf⟩

/-- Witness for C2 at a concrete run: the category-list iteration on a
code-4 fetch resets and sleeps without retrying. -/
theorem C2_response_code_policies_witness :
    (scrapeCatStep (fun _ => ApiResponse.mk 4 []) (some "t") initState
        (9, "easy")).trace
      = initState.trace
        ++ [ApiEvent.fetch 50 (some 9) (some "easy") (some "t") 4,
            .resetToken, .sleep, .sleep] :=
  (C2_response_code_policies (fun _ => ApiResponse.mk 4 []) "t" initState
    (9, "easy") 1 0 (some "t") 1 rfl).2.2.2.2.1

/-- Claim C3: in the full sweep a code-4 fetch triggers at most one
reset-and-retry — exactly one when a session token is held, none
otherwise — and when the retry returns any non-zero code (code 4
included) no further fetch is issued for that (category, difficulty)
combination and it contributes zero accepted questions. -/
theorem C3_full_sweep_single_retry (env : Nat → ApiResponse)
    (token : Option String) (s : SState) (cd : Nat × String)
    (h4 : (env s.fetchCount).response_code = 4)
    (hr : (env (s.fetchCount + 1)).response_code ≠ 0) :
    (scrapeAllStep env token s cd).trace.countP isFetchEv
        ≤ s.trace.countP isFetchEv + 2
    ∧ (scrapeAllStep env token s cd).trace.countP isResetEv
        ≤ s.trace.countP isResetEv + 1
    ∧ (scrapeAllStep env token s cd).all_questions = s.all_questions
    ∧ (∀ tok : String, token = some tok →
        (scrapeAllStep env token s cd).trace.countP isFetchEv
          = s.trace.countP isFetchEv + 2
        ∧ (scrapeAllStep env token s cd).trace.countP isResetEv
          = s.trace.countP isResetEv + 1) := by
  cases token with
  | none =>
    rw [scrapeAllStep_code4_none env s cd h4]
    refine ⟨?_, ?_, rfl, fun tok2 heq => Option.noConfusion heq⟩
    · show List.countP isFetchEv (s.trace ++ _) ≤ _
      simp [List.countP_append, List.countP_cons, isFetchEv]
    · show List.countP isResetEv (s.trace ++ _) ≤ _
      simp [List.countP_append, List.countP_cons, isResetEv]
  | some tok =>
    obtain ⟨ht, hfc, hfail, hsucc⟩ :=
      scrapeAllStep_code4_some env tok s cd h4
    have hcount1 : (scrapeAllStep env (some tok) s cd).trace.countP
        isFetchEv = s.trace.countP isFetchEv + 2 := by
      rw [ht]
      simp [List.countP_append, List.countP_cons, isFetchEv]
    have hcount2 : (scrapeAllStep env (some tok) s cd).trace.countP
        isResetEv = s.trace.countP isResetEv + 1 := by
      rw [ht]
      simp [List.countP_append, List.countP_cons, isResetEv]
    exact ⟨hcount1.le, hcount2.le, hfail hr,
      fun tok2 _ => ⟨hcount1, hcount2⟩⟩

/-- Witness for C3 at a concrete run: with every fetch answering code 4,
the first full-sweep iteration accepts nothing. -/
theorem C3_full_sweep_single_retry_witness :
    (scrapeAllStep (fun _ => ApiResponse.mk 4 []) (some "t") initState
        (9, "easy")).all_questions = [] :=
  (C3_full_sweep_single_retry (fun _ => ApiResponse.mk 4 []) (some "t")
    initState (9, "easy") rfl (by decide)).2.2.1
